import Mathlib

/-!
Verification of the extraction-and-dispatch pipeline
(`app/core/state.py`, `app/core/repository.py`, `app/safety/sanitizer.py`,
`app/safety/validation.py`, `app/infra/http_client.py`,
`app/services/orchestration.py`).

Python strings are modelled as `List Char`.  Machine-level concerns
(event loop, HTTP transport) are modelled as oracles passed to the
embedded functions.
-/

/-- Python strings are modelled as lists of characters. -/
abbrev PyStr := List Char

/-- The backtick character (0x60), written by code point to keep it out of
literals. -/
def tickChar : Char := Char.ofNat 96

/-- The double-quote character (0x22). -/
def dquoteChar : Char := Char.ofNat 34

/-- The single-quote character (0x27). -/
def squoteChar : Char := Char.ofNat 39

/-- The backslash character (0x5c). -/
def bslashChar : Char := Char.ofNat 92

/-- The opening-brace character (0x7b). -/
def lbraceChar : Char := Char.ofNat 123

/-- The closing-brace character (0x7d). -/
def rbraceChar : Char := Char.ofNat 125

/-- Python `str.isspace` / regex `\s` set, restricted to the code points the
repository can meet in practice (ASCII whitespace, the C1 separators, NEL,
NBSP and the common Unicode spaces).  Both `str.strip()` and the regex
class `\s` use this set. -/
def pyIsSpace (c : Char) : Bool :=
  let n := c.toNat
  (9 ≤ n ∧ n ≤ 13) ∨ n = 32 ∨ (28 ≤ n ∧ n ≤ 31) ∨ n = 0x85 ∨ n = 0xa0 ∨
  n = 0x1680 ∨ (0x2000 ≤ n ∧ n ≤ 0x200a) ∨ n = 0x2028 ∨ n = 0x2029 ∨
  n = 0x202f ∨ n = 0x205f ∨ n = 0x3000

/-- Python `str.strip()`: drop leading and trailing whitespace. -/
def pyStrip (l : PyStr) : PyStr :=
  ((l.dropWhile pyIsSpace).reverse.dropWhile pyIsSpace).reverse

/-- Python `str.lower()`, faithful on ASCII (the repository only lowercases
channel names, which are ASCII). -/
def pyLower (l : PyStr) : PyStr := l.map Char.toLower

/-- ASCII decimal digit. -/
def isDigitChar (c : Char) : Bool := ('0' ≤ c ∧ c ≤ '9')

example : pyStrip "  ab  ".data = "ab".data := by decide
example : pyLower " Email".data = " email".data := by decide

/-- JSON values as produced by Python `json.loads`.  Numbers keep their
source lexeme (Python turns them into `int`/`float`; no claim depends on
numeric arithmetic).  `nan`, `inf`, `ninf` are the Python extensions
`NaN`, `Infinity`, `-Infinity`.  Objects are key/value lists in insertion
order with unique keys (later duplicates replace in place, as for a
Python dict). -/
inductive Json where
  | jnull : Json
  | jtrue : Json
  | jfalse : Json
  | nan : Json
  | inf : Json
  | ninf : Json
  | num (lexeme : PyStr) : Json
  | str (s : PyStr) : Json
  | arr (xs : List Json) : Json
  | obj (fields : List (PyStr × Json)) : Json

/-- JSON inter-token whitespace accepted by Python `json.loads`
(exactly space, tab, newline, carriage return). -/
def jsonWs (c : Char) : Bool := c = ' ' ∨ c = '\t' ∨ c = '\n' ∨ c = '\r'

/-- Skip JSON whitespace. -/
def skipJsonWs (l : PyStr) : PyStr := l.dropWhile jsonWs

/-- Value of a hexadecimal digit, if any. -/
def hexDigitVal (c : Char) : Option Nat :=
  if '0' ≤ c ∧ c ≤ '9' then some (c.toNat - 48)
  else if 'a' ≤ c ∧ c ≤ 'f' then some (c.toNat - 87)
  else if 'A' ≤ c ∧ c ≤ 'F' then some (c.toNat - 55)
  else none

/-- Body of a JSON string literal after the opening quote, per Python
`json.decoder.py_scanstring` in strict mode: raw control characters are
rejected, the escapes are the eight standard ones plus `\uXXXX`, and
surrogate pairs are combined.  Deviation noted: a lone surrogate escape,
which Python keeps as a lone-surrogate `str` character, is not a valid
Lean `Char` and is treated as a parse failure here (no claim exercises
it). Returns the decoded content and the input after the closing quote. -/
def parseStringBody : Nat → PyStr → Option (PyStr × PyStr)
  | 0, _ => none
  | _, [] => none
  | fuel + 1, c :: rest =>
    if c = dquoteChar then some ([], rest)
    else if c = bslashChar then
      match rest with
      | [] => none
      | e :: rest2 =>
        if e = dquoteChar ∨ e = bslashChar ∨ e = '/' then
          (fun p => (e :: p.1, p.2)) <$> parseStringBody fuel rest2
        else if e = 'b' then
          (fun p => (Char.ofNat 8 :: p.1, p.2)) <$> parseStringBody fuel rest2
        else if e = 'f' then
          (fun p => (Char.ofNat 12 :: p.1, p.2)) <$> parseStringBody fuel rest2
        else if e = 'n' then
          (fun p => ('\n' :: p.1, p.2)) <$> parseStringBody fuel rest2
        else if e = 'r' then
          (fun p => ('\r' :: p.1, p.2)) <$> parseStringBody fuel rest2
        else if e = 't' then
          (fun p => ('\t' :: p.1, p.2)) <$> parseStringBody fuel rest2
        else if e = 'u' then
          match rest2 with
          | h1 :: h2 :: h3 :: h4 :: rest3 =>
            match hexDigitVal h1, hexDigitVal h2, hexDigitVal h3, hexDigitVal h4 with
            | some a, some b, some c2, some d =>
              let n := ((a * 16 + b) * 16 + c2) * 16 + d
              if 0xd800 ≤ n ∧ n < 0xdc00 then
                match rest3 with
                | b1 :: u1 :: g1 :: g2 :: g3 :: g4 :: rest4 =>
                  if b1 = bslashChar ∧ u1 = 'u' then
                    match hexDigitVal g1, hexDigitVal g2, hexDigitVal g3, hexDigitVal g4 with
                    | some a2, some b2, some c3, some d2 =>
                      let m := ((a2 * 16 + b2) * 16 + c3) * 16 + d2
                      if 0xdc00 ≤ m ∧ m < 0xe000 then
                        let cp := 0x10000 + (n - 0xd800) * 0x400 + (m - 0xdc00)
                        (fun p => (Char.ofNat cp :: p.1, p.2)) <$> parseStringBody fuel rest4
                      else none
                    | _, _, _, _ => none
                  else none
                | _ => none
              else if 0xdc00 ≤ n ∧ n < 0xe000 then none
              else (fun p => (Char.ofNat n :: p.1, p.2)) <$> parseStringBody fuel rest3
            | _, _, _, _ => none
          | _ => none
        else none
    else if c.toNat < 0x20 then none
    else (fun p => (c :: p.1, p.2)) <$> parseStringBody fuel rest

/-- Scan a JSON number at the head of the input, per Python's
`NUMBER_RE = (-?(?:0|[1-9]\d+|[1-9]))(\.\d+)?([eE][-+]?\d+)?`
(equivalently `-?(0|[1-9]\d*)` followed by optional fraction and
exponent).  Returns the matched lexeme and the rest. -/
def scanJsonNumber (l : PyStr) : Option (PyStr × PyStr) :=
  let (neg, l1) := match l with
    | c :: r => if c = '-' then (['-'], r) else (([] : PyStr), l)
    | [] => ([], l)
  match l1 with
  | [] => none
  | c :: r =>
    if ¬ isDigitChar c then none
    else
      let (ipart, l2) :=
        if c = '0' then ([c], r)
        else (c :: r.takeWhile isDigitChar, r.dropWhile isDigitChar)
      let (fpart, l3) := match l2 with
        | d :: r2 =>
          if d = '.' ∧ (r2.takeWhile isDigitChar) ≠ [] then
            (d :: r2.takeWhile isDigitChar, r2.dropWhile isDigitChar)
          else (([] : PyStr), l2)
        | [] => ([], l2)
      let (epart, l4) := match l3 with
        | d :: r2 =>
          if d = 'e' ∨ d = 'E' then
            let (sgn, r3) := match r2 with
              | s :: r4 => if s = '+' ∨ s = '-' then (([s] : PyStr), r4) else (([] : PyStr), r2)
              | [] => ([], r2)
            if (r3.takeWhile isDigitChar) ≠ [] then
              (d :: sgn ++ r3.takeWhile isDigitChar, r3.dropWhile isDigitChar)
            else (([] : PyStr), l3)
          else (([] : PyStr), l3)
        | [] => ([], l3)
      some (neg ++ ipart ++ fpart ++ epart, l4)

/-- Insert a key into an object field list the way a Python dict does:
replace in place if the key is present, else append. -/
def objInsert (fields : List (PyStr × Json)) (k : PyStr) (v : Json) :
    List (PyStr × Json) :=
  match fields with
  | [] => [(k, v)]
  | (k0, v0) :: rest =>
    if k0 = k then (k0, v) :: rest else (k0, v0) :: objInsert rest k v

mutual

/-- One JSON value at the head of the input, per Python's `_scan_once`:
string, object, array, the literals `null`/`true`/`false`, a number, or
the Python extensions `NaN`/`Infinity`/`-Infinity`.  Fuel-indexed; the
top-level entry point supplies ample fuel. -/
def parseJsonValue : Nat → PyStr → Option (Json × PyStr)
  | 0, _ => none
  | _ + 1, [] => none
  | fuel + 1, c :: rest =>
    if c = dquoteChar then
      (fun p => (Json.str p.1, p.2)) <$> parseStringBody (fuel + 1) rest
    else if c = lbraceChar then parseJsonObj fuel (skipJsonWs rest)
    else if c = '[' then parseJsonArr fuel (skipJsonWs rest)
    else if "null".data.isPrefixOf (c :: rest) then some (Json.jnull, rest.drop 3)
    else if "true".data.isPrefixOf (c :: rest) then some (Json.jtrue, rest.drop 3)
    else if "false".data.isPrefixOf (c :: rest) then some (Json.jfalse, rest.drop 4)
    else
      match scanJsonNumber (c :: rest) with
      | some (lex, r) => some (Json.num lex, r)
      | none =>
        if "NaN".data.isPrefixOf (c :: rest) then some (Json.nan, rest.drop 2)
        else if "Infinity".data.isPrefixOf (c :: rest) then some (Json.inf, rest.drop 7)
        else if "-Infinity".data.isPrefixOf (c :: rest) then some (Json.ninf, rest.drop 8)
        else none

/-- Object body after the opening brace and following whitespace:
either an immediate closing brace, or a first key string. -/
def parseJsonObj : Nat → PyStr → Option (Json × PyStr)
  | 0, _ => none
  | _ + 1, [] => none
  | fuel + 1, c :: rest =>
    if c = rbraceChar then some (Json.obj [], rest)
    else if c = dquoteChar then parseJsonMembers fuel rest []
    else none

/-- Members of an object, entered just after the opening quote of a key.
Duplicate keys replace in place, as in a Python dict. -/
def parseJsonMembers : Nat → PyStr → List (PyStr × Json) → Option (Json × PyStr)
  | 0, _, _ => none
  | fuel + 1, l, acc =>
    match parseStringBody (fuel + 1) l with
    | none => none
    | some (k, r1) =>
      match skipJsonWs r1 with
      | [] => none
      | c :: r2 =>
        if c = ':' then
          match parseJsonValue fuel (skipJsonWs r2) with
          | none => none
          | some (v, r3) =>
            let acc2 := objInsert acc k v
            match skipJsonWs r3 with
            | [] => none
            | d :: r4 =>
              if d = rbraceChar then some (Json.obj acc2, r4)
              else if d = ',' then
                match skipJsonWs r4 with
                | [] => none
                | e :: r5 =>
                  if e = dquoteChar then parseJsonMembers fuel r5 acc2 else none
              else none
        else none

/-- Array body after the opening bracket and following whitespace. -/
def parseJsonArr : Nat → PyStr → Option (Json × PyStr)
  | 0, _ => none
  | _ + 1, [] => none
  | fuel + 1, c :: rest =>
    if c = ']' then some (Json.arr [], rest)
    else parseJsonItems fuel (c :: rest) []

/-- Items of a non-empty array, entered at the start of a value. -/
def parseJsonItems : Nat → PyStr → List Json → Option (Json × PyStr)
  | 0, _, _ => none
  | fuel + 1, l, acc =>
    match parseJsonValue fuel l with
    | none => none
    | some (v, r1) =>
      match skipJsonWs r1 with
      | [] => none
      | c :: r2 =>
        if c = ']' then some (Json.arr (acc ++ [v]), r2)
        else if c = ',' then parseJsonItems fuel (skipJsonWs r2) (acc ++ [v])
        else none

end

/-- Python `json.loads`: skip leading whitespace, parse one value, require
only whitespace after it.  Returns `none` where Python raises
`JSONDecodeError`. -/
def pyJsonLoads (l : PyStr) : Option Json :=
  match parseJsonValue (4 * l.length + 8) (skipJsonWs l) with
  | some (v, r) => if skipJsonWs r = [] then some v else none
  | none => none

/-- Lowercase hex digit for a value below 16. -/
def hexDigitChar (n : Nat) : Char :=
  if n < 10 then Char.ofNat (48 + n) else Char.ofNat (87 + n)

/-- Four lowercase hex digits, as in Python's `\uXXXX` escapes. -/
def hex4 (n : Nat) : PyStr :=
  [hexDigitChar (n / 4096 % 16), hexDigitChar (n / 256 % 16),
   hexDigitChar (n / 16 % 16), hexDigitChar (n % 16)]

/-- Escaping of one character by Python `json.dumps` with the default
`ensure_ascii=True` (`ESCAPE_ASCII` plus `ESCAPE_DCT`): backslash,
double quote and the named control characters get two-character escapes,
every other character outside printable ASCII `0x20..0x7e` becomes
`\uXXXX` (a surrogate pair beyond the BMP). -/
def dumpsChar (c : Char) : PyStr :=
  if c = dquoteChar then [bslashChar, dquoteChar]
  else if c = bslashChar then [bslashChar, bslashChar]
  else if c = '\n' then [bslashChar, 'n']
  else if c = '\r' then [bslashChar, 'r']
  else if c = '\t' then [bslashChar, 't']
  else if c = Char.ofNat 8 then [bslashChar, 'b']
  else if c = Char.ofNat 12 then [bslashChar, 'f']
  else if 0x20 ≤ c.toNat ∧ c.toNat ≤ 0x7e then [c]
  else if c.toNat ≤ 0xffff then bslashChar :: 'u' :: hex4 c.toNat
  else
    let v := c.toNat - 0x10000
    (bslashChar :: 'u' :: hex4 (0xd800 + v / 0x400)) ++
    (bslashChar :: 'u' :: hex4 (0xdc00 + v % 0x400))

/-- Python `json.dumps` applied to a string value. -/
def pyJsonDumpsStr (s : PyStr) : PyStr :=
  dquoteChar :: (s.flatMap dumpsChar) ++ [dquoteChar]

/-- Split at the first occurrence of character `c`: the part before and
the part after, the occurrence removed. -/
def splitAtChar (c : Char) : PyStr → Option (PyStr × PyStr)
  | [] => none
  | x :: r =>
    if x = c then some ([], r)
    else (fun p => (x :: p.1, p.2)) <$> splitAtChar c r

/-- The first repair of `_attempt_repair`:
`re.sub(r"'([^']*)'", lambda m: json.dumps(m.group(1)), candidate)`.
Leftmost non-overlapping matches: at a single quote, the shortest run up
to the next single quote is replaced by its `json.dumps`; a single quote
with no closing partner does not match and is kept. -/
def pySubQuotes : Nat → PyStr → PyStr
  | 0, l => l
  | _ + 1, [] => []
  | fuel + 1, c :: rest =>
    if c = squoteChar then
      match splitAtChar squoteChar rest with
      | some (seg, after) => pyJsonDumpsStr seg ++ pySubQuotes fuel after
      | none => c :: pySubQuotes fuel rest
    else c :: pySubQuotes fuel rest

/-- Regex `\w` (word character), ASCII fragment `[A-Za-z0-9_]`; the
repository's candidates are ASCII, unicode word characters are not
modelled. -/
def isWordChar (c : Char) : Bool :=
  ('a' ≤ c ∧ c ≤ 'z') ∨ ('A' ≤ c ∧ c ≤ 'Z') ∨ isDigitChar c ∨ c = '_'

/-- The second repair of `_attempt_repair`:
`re.sub(r"(\w+)\s*:", r'"\1":', candidate)`.  A maximal word run
followed by optional whitespace and a colon becomes the quoted word
plus a colon.  When the colon test fails, no start position inside the
same word run can match either (the shorter run is still followed by a
word character, which is neither whitespace nor a colon), so scanning
resumes after the run — equivalent to `re.sub`'s leftmost scan. -/
def pySubBareKeys : Nat → PyStr → PyStr
  | 0, l => l
  | _ + 1, [] => []
  | fuel + 1, c :: rest =>
    if isWordChar c then
      let run := c :: rest.takeWhile isWordChar
      let after := rest.dropWhile isWordChar
      match after.dropWhile pyIsSpace with
      | d :: r2 =>
        if d = ':' then (dquoteChar :: run ++ [dquoteChar, ':']) ++ pySubBareKeys fuel r2
        else run ++ pySubBareKeys fuel after
      | [] => run ++ pySubBareKeys fuel after
    else c :: pySubBareKeys fuel rest

/-- Split at the first occurrence of a triple backtick: the part before
and the part after it. -/
def splitAtTicks : PyStr → Option (PyStr × PyStr)
  | [] => none
  | c :: rest =>
    if c = tickChar ∧ [tickChar, tickChar].isPrefixOf rest then some ([], rest.drop 2)
    else (fun p => (c :: p.1, p.2)) <$> splitAtTicks rest

/-- Model of `re.search(r"```(?:json)?\s*([\s\S]*?)\s*```", raw)` followed
by `.group(1).strip()` in `_extract_json_block`.  Derivation from the
regex: the leftmost match begins at the first triple backtick (a later
start can only succeed if a closing triple backtick follows it, and any
such occurrence also closes the first one, since neither `json` nor the
backticks themselves can hide one).  The optional `json` tag is consumed
exactly when the four characters after the opening fence are `json`.
The lazy group then ends at the first following triple backtick, with
the greedy and backtracked `\s*` around the group trimming exactly the
whitespace that `.strip()` removes anyway, so stripping the whole
interior yields `group(1).strip()`. -/
def fenceSearch (raw : PyStr) : Option PyStr :=
  match splitAtTicks raw with
  | none => none
  | some (_, r1) =>
    let r2 := if "json".data.isPrefixOf r1 then r1.drop 4 else r1
    match splitAtTicks r2 with
    | none => none
    | some (inner, _) => some (pyStrip inner)

/-- The character-by-character balanced-brace scan of
`_extract_json_block`, started at the first `{`.  State mirrors the
Python locals `in_string`, `quote_char`, `escape`, `depth`; `acc` is
`raw[start:i]`.  Returns `raw[start : i + 1]` at the `}` that brings the
depth to zero, `none` if the loop ends first.  `quoteChar` is only read
while `inString` is true; the initial value stands for Python's
`None`. -/
def braceScanLoop (inString : Bool) (quoteChar : Char) (escape : Bool)
    (depth : Int) (acc : PyStr) : PyStr → Option PyStr
  | [] => none
  | c :: rest =>
    if escape then braceScanLoop inString quoteChar false depth (acc ++ [c]) rest
    else if c = bslashChar ∧ inString then
      braceScanLoop inString quoteChar true depth (acc ++ [c]) rest
    else if ¬ inString then
      if c = lbraceChar then braceScanLoop false quoteChar false (depth + 1) (acc ++ [c]) rest
      else if c = rbraceChar then
        if depth - 1 = 0 then some (acc ++ [c])
        else braceScanLoop false quoteChar false (depth - 1) (acc ++ [c]) rest
      else if c = dquoteChar ∨ c = squoteChar then
        braceScanLoop true c false depth (acc ++ [c]) rest
      else braceScanLoop false quoteChar false depth (acc ++ [c]) rest
    else
      if c = quoteChar then braceScanLoop false quoteChar false depth (acc ++ [c]) rest
      else braceScanLoop true quoteChar false depth (acc ++ [c]) rest

/-- Model of `_extract_json_block`: empty or whitespace-only input yields nothing;
a fenced block is preferred; otherwise the balanced-brace scan from the
first `{` (`raw.find`), `none` when there is no `{` or the scan never
returns to depth zero. -/
def extract_json_block (raw : PyStr) : Option PyStr :=
  if raw = [] ∨ pyStrip raw = [] then none
  else
    match fenceSearch raw with
    | some inner => some inner
    | none =>
      match raw.dropWhile (fun c => ¬ (c = lbraceChar)) with
      | [] => none
      | t => braceScanLoop false dquoteChar false 0 [] t

/-- Model of `_attempt_parse`: strict `json.loads`, `none` on decode error. -/
def attempt_parse (candidate : PyStr) : Option Json := pyJsonLoads candidate

/-- Model of `_attempt_repair`: the single-quote repair followed by a strict
parse, then (on the original candidate) the bare-key repair followed by
a strict parse. -/
def attempt_repair (candidate : PyStr) : Option Json :=
  match pyJsonLoads (pySubQuotes (candidate.length + 1) candidate) with
  | some v => some v
  | none => pyJsonLoads (pySubBareKeys (candidate.length + 1) candidate)

/-- Model of `sanitize_llm_output`: extract a candidate (a falsy — absent or
empty — candidate yields `None`), return the strict parse if it is a
dict, else the repair result if it is a dict, else `None`. -/
def sanitize_llm_output (raw : PyStr) : Option (List (PyStr × Json)) :=
  match extract_json_block raw with
  | none => none
  | some candidate =>
    if candidate = [] then none
    else
      match attempt_parse candidate with
      | some (Json.obj o) => some o
      | _ =>
        match attempt_repair candidate with
        | some (Json.obj o) => some o
        | _ => none

/-- A Python dict as handed to `validate_extraction`: key/value pairs
with unique keys in insertion order.  Keys are strings; the
`isinstance(k, str)` filter in `_normalize_keys` is the identity here,
since `json.loads` only ever produces string keys. -/
abbrev PyDict := List (PyStr × Json)

/-- Dict lookup. -/
def dictGet (d : PyDict) (k : PyStr) : Option Json :=
  (d.find? (fun kv => kv.1 == k)).map (fun kv => kv.2)

/-- Python truthiness of a number lexeme: an `int` or `float` is falsy
exactly when it is zero, i.e. when no digit of the mantissa (the part
before any exponent) is nonzero. -/
def numLexTruthy (lex : PyStr) : Bool :=
  (lex.takeWhile (fun c => ¬ (c = 'e' ∨ c = 'E'))).any
    (fun c => isDigitChar c ∧ c ≠ '0')

/-- Python truthiness of a `json.loads` value. -/
def jsonTruthy : Json → Bool
  | Json.jnull => false
  | Json.jtrue => true
  | Json.jfalse => false
  | Json.nan => true
  | Json.inf => true
  | Json.ninf => true
  | Json.num lex => numLexTruthy lex
  | Json.str s => ¬ s.isEmpty
  | Json.arr xs => ¬ xs.isEmpty
  | Json.obj fs => ¬ fs.isEmpty

/-- Does the lexeme denote a Python `int` (no fraction, no exponent)? -/
def isIntLexeme (lex : PyStr) : Bool :=
  lex.all (fun c => ¬ (c = '.' ∨ c = 'e' ∨ c = 'E'))

/- Python `str()` of a `json.loads` value, as used by
`_normalize_keys` to coerce a non-string message.  Exact for strings,
ints (the only normalisation an `int` needs is `-0 → 0`; the JSON
grammar forbids other leading zeros), booleans and `None`.  For floats
the source lexeme is kept and for containers a `repr`-like rendering is
produced; Python's exact float formatting and container `repr` are not
modelled bit-for-bit (no claim depends on them, the pipeline only
stringifies scalar messages). -/
mutual

/-- Python `str()` of one `json.loads` value (see the comment above). -/
def pyStrOfJson : Json → PyStr
  | Json.jnull => "None".data
  | Json.jtrue => "True".data
  | Json.jfalse => "False".data
  | Json.nan => "nan".data
  | Json.inf => "inf".data
  | Json.ninf => "-inf".data
  | Json.num lex => if isIntLexeme lex then (if lex = "-0".data then "0".data else lex) else lex
  | Json.str s => s
  | Json.arr xs => '[' :: pyReprItems xs ++ [']']
  | Json.obj fs => lbraceChar :: pyReprFields fs ++ [rbraceChar]

/-- Comma-separated rendering of array items (see `pyStrOfJson`). -/
def pyReprItems : List Json → PyStr
  | [] => []
  | [x] => pyStrOfJson x
  | x :: y :: r => pyStrOfJson x ++ ", ".data ++ pyReprItems (y :: r)

/-- Comma-separated rendering of object fields (see `pyStrOfJson`). -/
def pyReprFields : List (PyStr × Json) → PyStr
  | [] => []
  | [(k, v)] => k ++ ": ".data ++ pyStrOfJson v
  | (k, v) :: y :: r => k ++ ": ".data ++ pyStrOfJson v ++ ", ".data ++ pyReprFields (y :: r)

end

/-- Destination alias keys, in priority order (`_TO_KEYS`). -/
def TO_KEYS : List PyStr := ["to".data, "recipient".data, "destination".data]

/-- Message alias keys, in priority order (`_MESSAGE_KEYS`). -/
def MESSAGE_KEYS : List PyStr := ["message".data, "body".data, "text".data]

/-- Channel alias keys, in priority order (`_TYPE_KEYS`). -/
def TYPE_KEYS : List PyStr := ["type".data, "channel".data, "method".data]

/-- The destination/channel alias loop of `_normalize_keys`: the first
key that is present with a string value wins; a key that is present
with a non-string value is skipped and the loop continues. -/
def findStrAlias (lowered : PyDict) : List PyStr → Option PyStr
  | [] => none
  | k :: ks =>
    match dictGet lowered k with
    | some (Json.str s) => some s
    | _ => findStrAlias lowered ks

/-- The message alias loop of `_normalize_keys`: the first key that is
present wins, whatever the type of its value. -/
def findPresentAlias (lowered : PyDict) : List PyStr → Option Json
  | [] => none
  | k :: ks =>
    match dictGet lowered k with
    | some v => some v
    | none => findPresentAlias lowered ks

/-- The canonical `{to, message, type}` triple produced by the
validator. -/
structure CanonicalNotification where
  to_ : PyStr
  message : PyStr
  type_ : PyStr
deriving DecidableEq

/-- The dict comprehension lowering the keys in `_normalize_keys`
(later duplicates replace earlier ones). -/
def lowerKeys (data : PyDict) : PyDict :=
  data.foldl (fun acc kv => objInsert acc (pyLower kv.1) kv.2) []

/-- The resolved message: the first present alias, truthy values coerced
with `str()` and stripped, falsy ones (and a missing alias) giving the
empty string. -/
def resolveMessage (lowered : PyDict) : PyStr :=
  match findPresentAlias lowered MESSAGE_KEYS with
  | none => []
  | some v => if jsonTruthy v then pyStrip (pyStrOfJson v) else []

/-- Model of `_normalize_keys`: lowercase the keys, resolve the destination
(string aliases only; stripped; missing or stripping to empty is falsy
and rejected), the message (`resolveMessage`; absent defaults to
empty), and the channel (string aliases only; stripped and lowercased;
missing is rejected).  Written
without intermediate state since the message and channel resolutions
are pure and cannot fail before the destination falsy check. -/
def normalize_keys (data : PyDict) : Option CanonicalNotification :=
  match findStrAlias (lowerKeys data) TO_KEYS with
  | none => none
  | some s =>
    if pyStrip s = [] then none
    else
      match findStrAlias (lowerKeys data) TYPE_KEYS with
      | none => none
      | some t => some ⟨pyStrip s, resolveMessage (lowerKeys data), pyLower (pyStrip t)⟩

/-- ASCII letter. -/
def isAsciiAlpha (c : Char) : Bool := ('A' ≤ c ∧ c ≤ 'Z') ∨ ('a' ≤ c ∧ c ≤ 'z')

/-- Character class `[A-Za-z0-9._%+-]` of the email local part. -/
def isEmailLocalChar (c : Char) : Bool :=
  isAsciiAlpha c ∨ isDigitChar c ∨ c = '.' ∨ c = '_' ∨ c = '%' ∨ c = '+' ∨ c = '-'

/-- Character class `[A-Za-z0-9.-]` of the email domain part. -/
def isEmailDomainChar (c : Char) : Bool :=
  isAsciiAlpha c ∨ isDigitChar c ∨ c = '.' ∨ c = '-'

/-- Split at the last occurrence of character `c`. -/
def splitLastAtChar (c : Char) (l : PyStr) : Option (PyStr × PyStr) :=
  match splitAtChar c l.reverse with
  | none => none
  | some (a, b) => some (b.reverse, a.reverse)

/-- Whole-string match of `_EMAIL_REGEX`,
`^[A-Za-z0-9._%+-]+@[A-Za-z0-9.-]+\.[A-Za-z]{2,}$`, up to the `$`
boundary.  Since `@` belongs to no class, a match must use the first
(and only) `@`; since the top-level domain class has no dot, the `\.`
must be the last dot after the `@`. -/
def emailCore (t : PyStr) : Bool :=
  match splitAtChar '@' t with
  | none => false
  | some (localPart, rest) =>
    !localPart.isEmpty && localPart.all isEmailLocalChar &&
    (match splitLastAtChar '.' rest with
     | none => false
     | some (dom, tld) =>
       !dom.isEmpty && dom.all isEmailDomainChar &&
       decide (2 ≤ tld.length) && tld.all isAsciiAlpha)

/-- Model of `_is_valid_email`: `re.match` of `_EMAIL_REGEX`.  Python's `$` also
matches just before a single trailing newline, hence the second
disjunct. -/
def is_valid_email (s : PyStr) : Bool :=
  emailCore s || (decide (s.getLast? = some '\n') && emailCore s.dropLast)

/-- Character class `[0-9\-+\s]` of `_PHONE_REGEX`. -/
def phoneClassChar (c : Char) : Bool :=
  isDigitChar c ∨ c = '-' ∨ c = '+' ∨ pyIsSpace c

/-- Whole-string match of `_PHONE_REGEX`, `^[0-9\-+\s]{6,20}$`, up to
the `$` boundary. -/
def phoneCore (t : PyStr) : Bool :=
  decide (6 ≤ t.length) && decide (t.length ≤ 20) && t.all phoneClassChar

/-- Model of `_is_valid_phone`: `re.match` of `_PHONE_REGEX`, with the same `$`
trailing-newline allowance. -/
def is_valid_phone (s : PyStr) : Bool :=
  phoneCore s || (decide (s.getLast? = some '\n') && phoneCore s.dropLast)

/-- Model of `_validate_destination`: email addresses for channel `email`, phone
numbers for channel `sms`, nothing else. -/
def validate_destination (to_ type_ : PyStr) : Bool :=
  if type_ = "email".data then is_valid_email to_
  else if type_ = "sms".data then is_valid_phone to_
  else false

/-- Model of `validate_extraction`: normalize, require the channel to be exactly
`email` or `sms`, the destination to match the channel, and the message
to be non-empty after stripping. -/
def validate_extraction (data : PyDict) : Option CanonicalNotification :=
  match normalize_keys data with
  | none => none
  | some n =>
    if ¬ (n.type_ = "email".data ∨ n.type_ = "sms".data) then none
    else if ¬ validate_destination n.to_ n.type_ then none
    else if n.message = [] ∨ pyStrip n.message = [] then none
    else some n

/-- The request lifecycle statuses of `core/state.py`. -/
inductive RequestStatus where
  | QUEUED : RequestStatus
  | PROCESSING : RequestStatus
  | SENT : RequestStatus
  | FAILED : RequestStatus
deriving DecidableEq

/-- Model of `ALLOWED_TRANSITIONS`: the set of legal targets from each status,
kept as data. -/
def ALLOWED_TRANSITIONS : RequestStatus → List RequestStatus
  | RequestStatus.QUEUED => [RequestStatus.PROCESSING]
  | RequestStatus.PROCESSING => [RequestStatus.SENT, RequestStatus.FAILED]
  | RequestStatus.SENT => []
  | RequestStatus.FAILED => []

/-- Model of `can_transition`: membership of the target in the allowed set of the
origin (the `.get(..., set())` fallback is unreachable, every status is
a key). -/
def can_transition (from_status to_status : RequestStatus) : Bool :=
  to_status ∈ ALLOWED_TRANSITIONS from_status

/-- A stored request record: the immutable user input and the current
status. -/
structure RequestRecord where
  user_input : PyStr
  status : RequestStatus
deriving DecidableEq

/-- The repository's storage dict, id to record, in insertion order. -/
abbrev Ledger := List (String × RequestRecord)

/-- Model of `InMemoryRepository.get` and the dict lookup inside `transition`. -/
def ledgerGet (repo : Ledger) (req_id : String) : Option RequestRecord :=
  (repo.find? (fun kv => kv.1 == req_id)).map (fun kv => kv.2)

/-- The dict write `entry["status"] = new_status`: update the record of
`req_id` in place. -/
def ledgerSetStatus (repo : Ledger) (req_id : String) (st : RequestStatus) : Ledger :=
  repo.map (fun kv => if kv.1 == req_id then (kv.1, ⟨kv.2.user_input, st⟩) else kv)

/-- Model of `InMemoryRepository.transition`: under the repository lock, read the
record (absent yields `False`), check `can_transition`, and only then
write the new status.  Returns whether it applied, with the resulting
store. -/
def transition (repo : Ledger) (req_id : String) (new_status : RequestStatus) :
    Bool × Ledger :=
  match ledgerGet repo req_id with
  | none => (false, repo)
  | some entry =>
    if can_transition entry.status new_status then
      (true, ledgerSetStatus repo req_id new_status)
    else (false, repo)

/-- Model of `InMemoryRepository.create`, with the fresh uuid supplied as an
argument (uuid4 is an external source of randomness). -/
def ledgerCreate (repo : Ledger) (req_id : String) (user_input : PyStr) : Ledger :=
  repo ++ [(req_id, ⟨user_input, RequestStatus.QUEUED⟩)]

/-- Model of `InMemoryRepository.exists`. -/
def ledgerExists (repo : Ledger) (req_id : String) : Bool :=
  (repo.find? (fun kv => kv.1 == req_id)).isSome

/-- Failures raised by `httpx`: a `HTTPStatusError` carrying the response
status code, or a `TransportError`.  Both are subclasses of
`httpx.HTTPError`. -/
inductive HttpErr where
  | statusError (code : Nat) : HttpErr
  | transportError : HttpErr
deriving DecidableEq

/-- Model of `_is_transient_error`: rate-limit and server-error status codes, and
any transport error, are transient. -/
def is_transient_error : HttpErr → Bool
  | HttpErr.statusError c => c = 429 ∨ c = 500 ∨ c = 502 ∨ c = 503 ∨ c = 504
  | HttpErr.transportError => true

/-- Outcome of a call wrapped in the tenacity `@retry` decorator of
`http_client.py`, as seen by the caller: success, an `httpx.HTTPError`
propagated out, or a `tenacity.RetryError` (which is NOT an
`httpx.HTTPError`). -/
inductive RetryOutcome (α : Type) where
  | ok (a : α) : RetryOutcome α
  | httpError (e : HttpErr) : RetryOutcome α
  | retryError : RetryOutcome α
deriving DecidableEq

/-- The tenacity policy
`retry(retry=retry_if_exception(_is_transient_error), stop=stop_after_attempt(3), wait=...)`
with the default `reraise=False`, applied to a call whose successive
attempts behave as `attempts 0`, `attempts 1`, `attempts 2`: a
non-transient exception is re-raised as-is at any attempt; a transient
exception triggers a retry until the third attempt, after which
tenacity raises `RetryError` (not the underlying `httpx` error). -/
def retryCall {α : Type} (attempts : Nat → Except HttpErr α) : RetryOutcome α :=
  match attempts 0 with
  | Except.ok a => RetryOutcome.ok a
  | Except.error e =>
    if ¬ is_transient_error e then RetryOutcome.httpError e
    else
      match attempts 1 with
      | Except.ok a => RetryOutcome.ok a
      | Except.error e1 =>
        if ¬ is_transient_error e1 then RetryOutcome.httpError e1
        else
          match attempts 2 with
          | Except.ok a => RetryOutcome.ok a
          | Except.error e2 =>
            if ¬ is_transient_error e2 then RetryOutcome.httpError e2
            else RetryOutcome.retryError

/-- The pipeline stages whose bodies `process_request` enters. -/
inductive Stage where
  | extract : Stage
  | sanitize : Stage
  | validate : Stage
  | notify : Stage
deriving DecidableEq

/-- Observable outcome of one `process_request` run: the ledger
afterwards, whether an exception escaped the coroutine uncaught, the
stages entered in order, and the targets of the ledger transitions that
were actually applied, in order. -/
structure ProcOut where
  repo : Ledger
  escaped : Bool
  stages : List Stage
  applied : List RequestStatus
deriving DecidableEq

/-- Model of `process_request` of `services/orchestration.py`, for one request.
The two external calls are oracles giving the behaviour of each HTTP
attempt (the extract oracle receives the stored user input, as the real
call does; the notify oracle receives the canonical triple).  The
semaphore wait changes no state and is not represented.  Faithful
details: the record is read before the PROCESSING claim and its
`user_input` snapshot is used afterwards; only `httpx.HTTPError` is
caught around the two calls, so a `tenacity.RetryError` escapes
uncaught, skipping the FAILED transition; a falsy sanitizer result
(`None` or an empty dict) and a falsy validator result are failures. -/
def process_request (repo : Ledger) (req_id : String)
    (extractSvc : PyStr → Nat → Except HttpErr PyStr)
    (notifySvc : PyStr → PyStr → PyStr → Nat → Except HttpErr Unit) : ProcOut :=
  match ledgerGet repo req_id with
  | none => ⟨repo, false, [], []⟩
  | some entry =>
    match transition repo req_id RequestStatus.PROCESSING with
    | (false, _) => ⟨repo, false, [], []⟩
    | (true, repo1) =>
      match retryCall (extractSvc entry.user_input) with
      | RetryOutcome.httpError _ =>
        let p := transition repo1 req_id RequestStatus.FAILED
        ⟨p.2, false, [Stage.extract],
         RequestStatus.PROCESSING :: (if p.1 then [RequestStatus.FAILED] else [])⟩
      | RetryOutcome.retryError =>
        ⟨repo1, true, [Stage.extract], [RequestStatus.PROCESSING]⟩
      | RetryOutcome.ok raw =>
        match sanitize_llm_output raw with
        | none =>
          let p := transition repo1 req_id RequestStatus.FAILED
          ⟨p.2, false, [Stage.extract, Stage.sanitize],
           RequestStatus.PROCESSING :: (if p.1 then [RequestStatus.FAILED] else [])⟩
        | some fields =>
          if fields.isEmpty then
            let p := transition repo1 req_id RequestStatus.FAILED
            ⟨p.2, false, [Stage.extract, Stage.sanitize],
             RequestStatus.PROCESSING :: (if p.1 then [RequestStatus.FAILED] else [])⟩
          else
            match validate_extraction fields with
            | none =>
              let p := transition repo1 req_id RequestStatus.FAILED
              ⟨p.2, false, [Stage.extract, Stage.sanitize, Stage.validate],
               RequestStatus.PROCESSING :: (if p.1 then [RequestStatus.FAILED] else [])⟩
            | some v =>
              match retryCall (notifySvc v.to_ v.message v.type_) with
              | RetryOutcome.httpError _ =>
                let p := transition repo1 req_id RequestStatus.FAILED
                ⟨p.2, false, [Stage.extract, Stage.sanitize, Stage.validate, Stage.notify],
                 RequestStatus.PROCESSING :: (if p.1 then [RequestStatus.FAILED] else [])⟩
              | RetryOutcome.retryError =>
                ⟨repo1, true, [Stage.extract, Stage.sanitize, Stage.validate, Stage.notify],
                 [RequestStatus.PROCESSING]⟩
              | RetryOutcome.ok _ =>
                let p := transition repo1 req_id RequestStatus.SENT
                ⟨p.2, false, [Stage.extract, Stage.sanitize, Stage.validate, Stage.notify],
                 RequestStatus.PROCESSING :: (if p.1 then [RequestStatus.SENT] else [])⟩

/-- Modelled from the spec's words for claim C5 only (the code's
authority is `phoneCore`): a destination of 6 to 20 characters
"consisting of digits, spaces, and hyphens, with at most an optional
leading plus sign". -/
def specSmsDestinationFormat (s : PyStr) : Bool :=
  let core := match s with
    | c :: rest => if c = '+' then rest else s
    | [] => s
  decide (6 ≤ s.length) && decide (s.length ≤ 20) &&
    core.all (fun c => isDigitChar c || c = ' ' || c = '-')

/-- Looking a key up after an in-place status write: the same record
with the new status for the written id. -/
theorem ledgerGet_setStatus_self (repo : Ledger) (req_id : String) (st : RequestStatus) :
    ledgerGet (ledgerSetStatus repo req_id st) req_id =
      (ledgerGet repo req_id).map (fun e => ⟨e.user_input, st⟩) := by
  induction repo with
  | nil => rfl
  | cons kv rest ih =>
    by_cases h : kv.1 == req_id
    · simp [ledgerGet, ledgerSetStatus, List.find?, h]
    · simp only [ledgerGet, ledgerSetStatus, List.map, List.find?, h, if_neg]
      simpa [ledgerGet, ledgerSetStatus, h] using ih

/-- A transition whose guard fails leaves the store untouched and
reports `false`. -/
theorem transition_not_applicable (repo : Ledger) (req_id : String)
    (t : RequestStatus) (rec : RequestRecord)
    (h : ledgerGet repo req_id = some rec)
    (hcan : can_transition rec.status t = false) :
    transition repo req_id t = (false, repo) := by
  simp [transition, h, hcan]

/-- A transition whose guard holds writes the new status and reports
`true`. -/
theorem transition_applicable (repo : Ledger) (req_id : String)
    (t : RequestStatus) (rec : RequestRecord)
    (h : ledgerGet repo req_id = some rec)
    (hcan : can_transition rec.status t = true) :
    transition repo req_id t = (true, ledgerSetStatus repo req_id t) := by
  simp [transition, h, hcan]

/-- After a transition to a non-QUEUED target, the record (if it
existed) still exists and its status is the old one or the target. -/
theorem status_after_transition (repo : Ledger) (req_id : String)
    (rec : RequestRecord) (t : RequestStatus)
    (h : ledgerGet repo req_id = some rec) :
    ∃ rec2, ledgerGet (transition repo req_id t).2 req_id = some rec2 ∧
      (rec2.status = rec.status ∨ rec2.status = t) := by
  by_cases hcan : can_transition rec.status t = true
  · rw [transition_applicable repo req_id t rec h hcan]
    refine ⟨⟨rec.user_input, t⟩, ?_, Or.inr rfl⟩
    simp [ledgerGet_setStatus_self, h]
  · rw [transition_not_applicable repo req_id t rec h (by simpa using hcan)]
    exact ⟨rec, h, Or.inl rfl⟩

/-- C2: `transition(id, target)` writes the new status and returns true
exactly when (current status, target) is an edge of the graph
QUEUED→PROCESSING, PROCESSING→SENT, PROCESSING→FAILED; any other
request (including an unknown id, any transition out of SENT or FAILED,
and QUEUED directly to SENT or FAILED) returns false and leaves the
store unchanged, and the function is total (never raises). -/
theorem C2_transition_graph (repo : Ledger) (req_id : String) (target : RequestStatus) :
    ((transition repo req_id target).1 = true ↔
      ∃ rec, ledgerGet repo req_id = some rec ∧ can_transition rec.status target = true)
    ∧ ((transition repo req_id target).1 = false → (transition repo req_id target).2 = repo)
    ∧ (∀ rec, ledgerGet repo req_id = some rec →
        (transition repo req_id target).1 = true →
        ledgerGet (transition repo req_id target).2 req_id =
          some ⟨rec.user_input, target⟩)
    ∧ (∀ a b, can_transition a b = true ↔
        (a = RequestStatus.QUEUED ∧ b = RequestStatus.PROCESSING) ∨
        (a = RequestStatus.PROCESSING ∧ b = RequestStatus.SENT) ∨
        (a = RequestStatus.PROCESSING ∧ b = RequestStatus.FAILED)) := by
  refine ⟨?_, ?_, ?_, ?_⟩
  · constructor
    · intro h1
      match h : ledgerGet repo req_id with
      | none => simp [transition, h] at h1
      | some rec =>
        refine ⟨rec, rfl, ?_⟩
        by_cases hcan : can_transition rec.status target = true
        · exact hcan
        · rw [transition_not_applicable repo req_id target rec h (by simpa using hcan)] at h1
          simp at h1
    · rintro ⟨rec, h, hcan⟩
      rw [transition_applicable repo req_id target rec h hcan]
  · intro h1
    match h : ledgerGet repo req_id with
    | none => simp [transition, h]
    | some rec =>
      by_cases hcan : can_transition rec.status target = true
      · rw [transition_applicable repo req_id target rec h hcan] at h1
        simp at h1
      · rw [transition_not_applicable repo req_id target rec h (by simpa using hcan)]
  · intro rec h h1
    by_cases hcan : can_transition rec.status target = true
    · rw [transition_applicable repo req_id target rec h hcan]
      simp [ledgerGet_setStatus_self, h]
    · rw [transition_not_applicable repo req_id target rec h (by simpa using hcan)] at h1
      simp at h1
  · intro a b
    cases a <;> cases b <;> simp [can_transition, ALLOWED_TRANSITIONS]

/-- Witness for C2 at a concrete store: a transition QUEUED→SENT is
refused and leaves the store unchanged. -/
theorem C2_transition_graph_witness :
    (transition [("r", ⟨"hi".data, RequestStatus.QUEUED⟩)] "r" RequestStatus.SENT).2 =
      [("r", ⟨"hi".data, RequestStatus.QUEUED⟩)] :=
  (C2_transition_graph [("r", ⟨"hi".data, RequestStatus.QUEUED⟩)] "r"
    RequestStatus.SENT).2.1 (by decide)

/-- Only QUEUED may move to PROCESSING. -/
theorem can_to_processing (s : RequestStatus) (h : s ≠ RequestStatus.QUEUED) :
    can_transition s RequestStatus.PROCESSING = false := by
  cases s <;> simp_all [can_transition, ALLOWED_TRANSITIONS]

/-- A run that finds no record, or cannot claim PROCESSING, changes
nothing, enters no stage, applies no transition and raises nothing. -/
theorem process_request_silent (repo : Ledger) (req_id : String)
    (extractSvc : PyStr → Nat → Except HttpErr PyStr)
    (notifySvc : PyStr → PyStr → PyStr → Nat → Except HttpErr Unit)
    (h : ledgerGet repo req_id = none ∨
      ∃ rec, ledgerGet repo req_id = some rec ∧
        can_transition rec.status RequestStatus.PROCESSING = false) :
    process_request repo req_id extractSvc notifySvc = ⟨repo, false, [], []⟩ := by
  rcases h with h | ⟨rec, h, hcan⟩
  · simp [process_request, h]
  · simp [process_request, h,
      transition_not_applicable repo req_id RequestStatus.PROCESSING rec h hcan]

/-- Any single run enters the notify stage at most once and the extract
stage at most once. -/
theorem process_request_counts (repo : Ledger) (req_id : String)
    (extractSvc : PyStr → Nat → Except HttpErr PyStr)
    (notifySvc : PyStr → PyStr → PyStr → Nat → Except HttpErr Unit) :
    (process_request repo req_id extractSvc notifySvc).stages.count Stage.notify ≤ 1 ∧
    (process_request repo req_id extractSvc notifySvc).stages.count Stage.extract ≤ 1 := by
  unfold process_request
  repeat' split
  all_goals dsimp only
  all_goals decide

/-- After a fail-or-finish transition from the PROCESSING-owning run,
the record exists and is no longer QUEUED. -/
theorem status_after_ownrun (repo : Ledger) (req_id : String)
    (rec : RequestRecord) (t : RequestStatus)
    (hget : ledgerGet repo req_id = some rec) (ht : t ≠ RequestStatus.QUEUED) :
    ∃ rec2,
      ledgerGet
        (transition (ledgerSetStatus repo req_id RequestStatus.PROCESSING) req_id t).2
        req_id = some rec2 ∧ rec2.status ≠ RequestStatus.QUEUED := by
  have h1 : ledgerGet (ledgerSetStatus repo req_id RequestStatus.PROCESSING) req_id =
      some ⟨rec.user_input, RequestStatus.PROCESSING⟩ := by
    simp [ledgerGet_setStatus_self, hget]
  obtain ⟨rec2, h2, h3⟩ := status_after_transition _ _ _ t h1
  refine ⟨rec2, h2, ?_⟩
  rcases h3 with h | h
  · simp [h]
  · rw [h]; exact ht

/-- A run that did claim PROCESSING leaves the record in a non-QUEUED
status. -/
theorem process_request_entered_status (repo : Ledger) (req_id : String)
    (extractSvc : PyStr → Nat → Except HttpErr PyStr)
    (notifySvc : PyStr → PyStr → PyStr → Nat → Except HttpErr Unit)
    (rec : RequestRecord)
    (hget : ledgerGet repo req_id = some rec)
    (hcan : can_transition rec.status RequestStatus.PROCESSING = true) :
    ∃ rec2,
      ledgerGet (process_request repo req_id extractSvc notifySvc).repo req_id =
        some rec2 ∧ rec2.status ≠ RequestStatus.QUEUED := by
  have hproc : ledgerGet (ledgerSetStatus repo req_id RequestStatus.PROCESSING) req_id =
      some ⟨rec.user_input, RequestStatus.PROCESSING⟩ := by
    simp [ledgerGet_setStatus_self, hget]
  unfold process_request
  rw [hget, transition_applicable repo req_id RequestStatus.PROCESSING rec hget hcan]
  dsimp only
  cases hE : retryCall (extractSvc rec.user_input) with
  | httpError e =>
    exact status_after_ownrun repo req_id rec RequestStatus.FAILED hget (by simp)
  | retryError =>
    exact ⟨⟨rec.user_input, RequestStatus.PROCESSING⟩, hproc, by simp⟩
  | ok raw =>
    dsimp only
    cases hS : sanitize_llm_output raw with
    | none =>
      exact status_after_ownrun repo req_id rec RequestStatus.FAILED hget (by simp)
    | some fields =>
      dsimp only
      by_cases hF : fields.isEmpty = true
      · rw [if_pos hF]
        exact status_after_ownrun repo req_id rec RequestStatus.FAILED hget (by simp)
      · rw [if_neg hF]
        cases hV : validate_extraction fields with
        | none =>
          exact status_after_ownrun repo req_id rec RequestStatus.FAILED hget (by simp)
        | some v =>
          dsimp only
          cases hN : retryCall (notifySvc v.to_ v.message v.type_) with
          | httpError e =>
            exact status_after_ownrun repo req_id rec RequestStatus.FAILED hget (by simp)
          | retryError =>
            exact ⟨⟨rec.user_input, RequestStatus.PROCESSING⟩, hproc, by simp⟩
          | ok u =>
            exact status_after_ownrun repo req_id rec RequestStatus.SENT hget (by simp)

/-- C3: if the record is absent or the PROCESSING claim does not apply,
`process_request` returns silently, entering no stage (extract,
sanitize, validate or notify) and changing no ledger state; hence two
sequential invocations on the same id attempt notify at most once and
run the extraction pipeline at most once. -/
theorem C3_reentry_idempotent :
    (∀ (repo : Ledger) (req_id : String)
       (extractSvc : PyStr → Nat → Except HttpErr PyStr)
       (notifySvc : PyStr → PyStr → PyStr → Nat → Except HttpErr Unit),
       ledgerGet repo req_id = none →
       process_request repo req_id extractSvc notifySvc = ⟨repo, false, [], []⟩)
    ∧ (∀ (repo : Ledger) (req_id : String) (rec : RequestRecord)
       (extractSvc : PyStr → Nat → Except HttpErr PyStr)
       (notifySvc : PyStr → PyStr → PyStr → Nat → Except HttpErr Unit),
       ledgerGet repo req_id = some rec →
       can_transition rec.status RequestStatus.PROCESSING = false →
       process_request repo req_id extractSvc notifySvc = ⟨repo, false, [], []⟩)
    ∧ (∀ (repo : Ledger) (req_id : String)
       (ex1 : PyStr → Nat → Except HttpErr PyStr)
       (nt1 : PyStr → PyStr → PyStr → Nat → Except HttpErr Unit)
       (ex2 : PyStr → Nat → Except HttpErr PyStr)
       (nt2 : PyStr → PyStr → PyStr → Nat → Except HttpErr Unit),
       (process_request repo req_id ex1 nt1).stages.count Stage.notify +
         (process_request (process_request repo req_id ex1 nt1).repo req_id
           ex2 nt2).stages.count Stage.notify ≤ 1
       ∧ (process_request repo req_id ex1 nt1).stages.count Stage.extract +
         (process_request (process_request repo req_id ex1 nt1).repo req_id
           ex2 nt2).stages.count Stage.extract ≤ 1) := by
  refine ⟨?_, ?_, ?_⟩
  · intro repo req_id ex nt h
    exact process_request_silent repo req_id ex nt (Or.inl h)
  · intro repo req_id rec ex nt h hcan
    exact process_request_silent repo req_id ex nt (Or.inr ⟨rec, h, hcan⟩)
  · intro repo req_id ex1 nt1 ex2 nt2
    match hget : ledgerGet repo req_id with
    | none =>
      have h1 := process_request_silent repo req_id ex1 nt1 (Or.inl hget)
      rw [h1]
      have h2 := process_request_counts repo req_id ex2 nt2
      simpa using h2
    | some rec =>
      by_cases hcan : can_transition rec.status RequestStatus.PROCESSING = true
      · obtain ⟨rec2, h2get, h2st⟩ :=
          process_request_entered_status repo req_id ex1 nt1 rec hget hcan
        have hsilent := process_request_silent
          (process_request repo req_id ex1 nt1).repo req_id ex2 nt2
          (Or.inr ⟨rec2, h2get, can_to_processing rec2.status h2st⟩)
        rw [hsilent]
        have h1 := process_request_counts repo req_id ex1 nt1
        simpa using h1
      · have h1 := process_request_silent repo req_id ex1 nt1
          (Or.inr ⟨rec, hget, by simpa using hcan⟩)
        rw [h1]
        have h2 := process_request_counts repo req_id ex2 nt2
        simpa using h2

/-- Witness for C3 at concrete inputs: on an empty ledger the run
returns silently. -/
theorem C3_reentry_idempotent_witness :
    process_request [] "r" (fun _ _ => Except.ok []) (fun _ _ _ _ => Except.ok ()) =
      ⟨[], false, [], []⟩ :=
  C3_reentry_idempotent.1 [] "r" (fun _ _ => Except.ok [])
    (fun _ _ _ _ => Except.ok ()) (by decide)

/-- C1 (documents the divergence): with one QUEUED record, an extract
call whose three attempts all fail with a transient 503 makes the
tenacity wrapper raise `RetryError`, which `except httpx.HTTPError`
does not catch: the exception escapes the run uncaught and no FAILED
transition happens, the record staying in PROCESSING — against the
claim.  By contrast a non-transient 401 propagates as an
`httpx.HTTPError`, is caught, and yields exactly one FAILED
transition with nothing escaping. -/
theorem C1_retry_exhaustion_escapes_uncaught :
    (process_request [("r", ⟨"hi".data, RequestStatus.QUEUED⟩)] "r"
        (fun _ _ => Except.error (HttpErr.statusError 503))
        (fun _ _ _ _ => Except.ok ()) =
      ⟨[("r", ⟨"hi".data, RequestStatus.PROCESSING⟩)], true, [Stage.extract],
        [RequestStatus.PROCESSING]⟩)
    ∧ (process_request [("r", ⟨"hi".data, RequestStatus.QUEUED⟩)] "r"
        (fun _ _ => Except.error (HttpErr.statusError 401))
        (fun _ _ _ _ => Except.ok ()) =
      ⟨[("r", ⟨"hi".data, RequestStatus.FAILED⟩)], false, [Stage.extract],
        [RequestStatus.PROCESSING, RequestStatus.FAILED]⟩) := by
  constructor
  · rfl
  · rfl

/-- The head of a `dropWhile p` result does not satisfy `p`. -/
theorem head_dropWhile_false (p : Char → Bool) (l : PyStr) (c : Char)
    (h : (l.dropWhile p).head? = some c) : p c = false := by
  induction l with
  | nil => simp [List.dropWhile] at h
  | cons x xs ih =>
    rw [List.dropWhile_cons] at h
    by_cases hx : p x
    · rw [if_pos hx] at h; exact ih h
    · rw [if_neg hx] at h
      simp only [List.head?] at h
      injection h with h2
      rw [← h2]
      simpa using hx

/-- A stripped string never ends in whitespace. -/
theorem pyStrip_getLast_not_space (l : PyStr) (c : Char)
    (h : (pyStrip l).getLast? = some c) : pyIsSpace c = false := by
  unfold pyStrip at h
  rw [List.getLast?_reverse] at h
  exact head_dropWhile_false pyIsSpace _ c h

/-- C5 counterexample: destination `123+45` for channel `sms` is
accepted by the code (the regex class allows `+` anywhere), yet it does
not have the claimed shape "digits, spaces and hyphens with at most an
optional leading plus". -/
theorem C5_counterexample_interior_plus :
    validate_extraction
      [("to".data, Json.str "123+45".data), ("message".data, Json.str "hi".data),
       ("type".data, Json.str "sms".data)] =
      some ⟨"123+45".data, "hi".data, "sms".data⟩
    ∧ specSmsDestinationFormat "123+45".data = false := by
  constructor
  · rfl
  · rfl

/-- C5 as amended: whenever validation succeeds with channel `sms`, the
resolved (stripped) destination is a 6–20 character string whose
characters are digits, plus signs, hyphens or whitespace — the plus
sign allowed anywhere, not only leading; and destination `12` is
rejected for channel `sms`. -/
theorem C5_sms_destination_amended :
    (∀ (data : PyDict) (out : CanonicalNotification),
       validate_extraction data = some out → out.type_ = "sms".data →
       phoneCore out.to_ = true)
    ∧ validate_extraction
        [("to".data, Json.str "12".data), ("message".data, Json.str "hi".data),
         ("type".data, Json.str "sms".data)] = none := by
  constructor
  · intro data out h hsms
    have hinv : normalize_keys data = some out ∧
        validate_destination out.to_ out.type_ = true := by
      unfold validate_extraction at h
      cases hn : normalize_keys data with
      | none => rw [hn] at h; cases h
      | some n =>
        rw [hn] at h
        dsimp only at h
        by_cases h1 : ¬ (n.type_ = "email".data ∨ n.type_ = "sms".data)
        · rw [if_pos h1] at h; cases h
        · rw [if_neg h1] at h
          by_cases h2 : ¬ validate_destination n.to_ n.type_ = true
          · rw [if_pos h2] at h; cases h
          · rw [if_neg h2] at h
            by_cases h3 : n.message = [] ∨ pyStrip n.message = []
            · rw [if_pos h3] at h; cases h
            · rw [if_neg h3] at h
              injection h with h4
              subst h4
              exact ⟨rfl, by simpa using h2⟩
    obtain ⟨hn, hvd⟩ := hinv
    have hstripped : ∃ s, out.to_ = pyStrip s := by
      unfold normalize_keys at hn
      split at hn
      · cases hn
      · next s hs =>
        by_cases hempty : pyStrip s = []
        · rw [if_pos hempty] at hn; cases hn
        · rw [if_neg hempty] at hn
          split at hn
          · cases hn
          · next t ht =>
            injection hn with h5
            subst h5
            exact ⟨s, rfl⟩
    obtain ⟨s, hto⟩ := hstripped
    rw [hsms] at hvd
    have hphone : is_valid_phone out.to_ = true := by
      unfold validate_destination at hvd
      rw [if_neg (by decide), if_pos rfl] at hvd
      exact hvd
    unfold is_valid_phone at hphone
    simp only [Bool.or_eq_true, Bool.and_eq_true, decide_eq_true_eq] at hphone
    rcases hphone with h1 | ⟨h2, _⟩
    · exact h1
    · exfalso
      have hc : pyIsSpace '\n' = false :=
        pyStrip_getLast_not_space s '\n' (by rw [← hto]; exact h2)
      exact absurd hc (by decide)
  · rfl

/-- Witness for C5's amended theorem at a concrete mapping: a valid sms
destination indeed has the amended shape. -/
theorem C5_sms_destination_amended_witness :
    phoneCore "+12 34-5".data = true :=
  C5_sms_destination_amended.1
    [("to".data, Json.str "+12 34-5".data), ("message".data, Json.str "hi".data),
     ("type".data, Json.str "sms".data)]
    ⟨"+12 34-5".data, "hi".data, "sms".data⟩ (by rfl) (by rfl)

/-- If a string contains no triple backtick start (no backtick at all
suffices), `splitAtTicks` finds nothing. -/
theorem splitAtTicks_none_of_no_tick (l : PyStr) (h : tickChar ∉ l) :
    splitAtTicks l = none := by
  induction l with
  | nil => rfl
  | cons c rest ih =>
    have hc : ¬ (c = tickChar) := fun hh => h (by rw [hh]; exact List.mem_cons_self _ _)
    have hrest : tickChar ∉ rest := fun hh => h (List.mem_cons_of_mem _ hh)
    unfold splitAtTicks
    rw [if_neg (by simp [hc])]
    rw [ih hrest]
    rfl

/-- A fence regex search on backtick-free input finds nothing. -/
theorem fenceSearch_none_of_no_tick (raw : PyStr) (h : tickChar ∉ raw) :
    fenceSearch raw = none := by
  unfold fenceSearch
  rw [splitAtTicks_none_of_no_tick raw h]

/-- The brace scan never yields a candidate when no closing brace
occurs in the remaining input, whatever its state. -/
theorem braceScanLoop_none_of_no_rbrace :
    ∀ (l : PyStr), rbraceChar ∉ l →
      ∀ (inString : Bool) (quoteChar : Char) (escape : Bool) (depth : Int) (acc : PyStr),
        braceScanLoop inString quoteChar escape depth acc l = none := by
  intro l
  induction l with
  | nil => intro _ inS qc esc d acc; rfl
  | cons c rest ih =>
    intro h inS qc esc d acc
    have hc : ¬ (c = rbraceChar) := fun hh => h (by rw [hh]; exact List.mem_cons_self _ _)
    have hrest : rbraceChar ∉ rest := fun hh => h (List.mem_cons_of_mem _ hh)
    unfold braceScanLoop
    split_ifs
    all_goals exact ih hrest _ _ _ _ _

/-- The sanitizer yields nothing when the candidate extraction yields
nothing. -/
theorem sanitize_of_extract_none (raw : PyStr)
    (h : extract_json_block raw = none) : sanitize_llm_output raw = none := by
  simp [sanitize_llm_output, h]

/-- Candidate extraction yields nothing when there is no fenced block
and the brace scan from the first opening brace yields nothing. -/
theorem extract_none_of_scan_none (raw : PyStr)
    (h1 : fenceSearch raw = none)
    (h2 : braceScanLoop false dquoteChar false 0 []
            (raw.dropWhile (fun c => ¬ (c = lbraceChar))) = none) :
    extract_json_block raw = none := by
  unfold extract_json_block
  by_cases hg : raw = [] ∨ pyStrip raw = []
  · rw [if_pos hg]
  · rw [if_neg hg, h1]
    cases ht : raw.dropWhile (fun c => ¬ (c = lbraceChar)) with
    | nil => rfl
    | cons c t => rw [ht] at h2; exact h2

/-- C7: with no fenced block, an input whose balanced-brace scan (the
string-literal and escape aware depth scan from the first `{`) never
returns to depth zero sanitizes to none; in particular any input
without backticks and without a closing brace at all does, such as the
spec's example containing an unterminated object. -/
theorem C7_unbalanced_braces_yield_none :
    (∀ raw : PyStr, fenceSearch raw = none →
       braceScanLoop false dquoteChar false 0 []
         (raw.dropWhile (fun c => ¬ (c = lbraceChar))) = none →
       sanitize_llm_output raw = none)
    ∧ (∀ raw : PyStr, tickChar ∉ raw → rbraceChar ∉ raw →
       sanitize_llm_output raw = none)
    ∧ sanitize_llm_output "I think \x7b\"to\": \"x\" maybe".data = none := by
  refine ⟨?_, ?_, by rfl⟩
  · intro raw h1 h2
    exact sanitize_of_extract_none raw (extract_none_of_scan_none raw h1 h2)
  · intro raw htick hbrace
    have h1 := fenceSearch_none_of_no_tick raw htick
    have hsub : rbraceChar ∉ raw.dropWhile (fun c => ¬ (c = lbraceChar)) :=
      fun hh => hbrace ((List.dropWhile_sublist _).mem hh)
    have h2 := braceScanLoop_none_of_no_rbrace _ hsub false dquoteChar false 0 []
    exact sanitize_of_extract_none raw (extract_none_of_scan_none raw h1 h2)

/-- Witness for C7 at a concrete input: a backtick-free text with an
opening but no closing brace sanitizes to none. -/
theorem C7_unbalanced_braces_yield_none_witness :
    sanitize_llm_output "ok \x7b\"to\": \"x\"".data = none :=
  C7_unbalanced_braces_yield_none.2.1 "ok \x7b\"to\": \"x\"".data
    (by decide) (by decide)

/-- A string wrapped in single quotes, for building the sanitizer
repair examples without quote characters in source literals. -/
def squoted (s : PyStr) : PyStr := squoteChar :: s ++ [squoteChar]

/-- The single-quoted example object of the spec,
`{'to': 'a@b.com', 'message': 'hi', 'type': 'email'}`. -/
def singleQuotedExample : PyStr :=
  [lbraceChar] ++ squoted "to".data ++ ": ".data ++ squoted "a@b.com".data ++
  ", ".data ++ squoted "message".data ++ ": ".data ++ squoted "hi".data ++
  ", ".data ++ squoted "type".data ++ ": ".data ++ squoted "email".data ++
  [rbraceChar]

/-- C8: on the spec's single-quoted example the strict parse fails, and
sanitize succeeds through the single-quote repair (each quoted literal
replaced by its `json.dumps`), returning exactly the mapping with keys
`to`, `message`, `type` and values `a@b.com`, `hi`, `email`. -/
theorem C8_single_quote_repair :
    attempt_parse singleQuotedExample = none
    ∧ sanitize_llm_output singleQuotedExample =
      some [("to".data, Json.str "a@b.com".data),
            ("message".data, Json.str "hi".data),
            ("type".data, Json.str "email".data)] := by
  exact ⟨rfl, rfl⟩

/-- C9: keys are normalized case-insensitively through the alias lists
with first-match priority — the capitalized `Recipient`/`Body`/`Channel`
mapping is accepted and normalized to the canonical triple, a missing
message defaults to the empty string at normalization, and `to` beats
`recipient` when both are present. -/
theorem C9_case_insensitive_aliases :
    validate_extraction
      [("Recipient".data, Json.str "a@b.com".data),
       ("Body".data, Json.str "hi".data),
       ("Channel".data, Json.str "email".data)] =
      some ⟨"a@b.com".data, "hi".data, "email".data⟩
    ∧ normalize_keys
        [("to".data, Json.str "a@b.com".data), ("type".data, Json.str "email".data)] =
      some ⟨"a@b.com".data, [], "email".data⟩
    ∧ validate_extraction
        [("to".data, Json.str "x@y.io".data), ("recipient".data, Json.str "z@w.io".data),
         ("type".data, Json.str "email".data), ("message".data, Json.str "hi".data)] =
      some ⟨"x@y.io".data, "hi".data, "email".data⟩ := by
  exact ⟨rfl, rfl, rfl⟩

/-- C10: a present but non-string destination or channel alias is
skipped in favour of the next alias instead of causing rejection, while
a non-string message value is coerced with `str()` and kept. -/
theorem C10_non_string_alias_handling :
    validate_extraction
      [("to".data, Json.num "123".data), ("recipient".data, Json.str "a@b.com".data),
       ("type".data, Json.str "email".data), ("message".data, Json.str "hi".data)] =
      some ⟨"a@b.com".data, "hi".data, "email".data⟩
    ∧ validate_extraction
        [("to".data, Json.str "a@b.com".data), ("message".data, Json.num "123".data),
         ("type".data, Json.str "email".data)] =
      some ⟨"a@b.com".data, "123".data, "email".data⟩
    ∧ validate_extraction
        [("to".data, Json.str "a@b.com".data), ("message".data, Json.str "hi".data),
         ("type".data, Json.num "5".data), ("channel".data, Json.str "email".data)] =
      some ⟨"a@b.com".data, "hi".data, "email".data⟩ := by
  exact ⟨rfl, rfl, rfl⟩

/-- Splitting at the triple backtick that follows a backtick-free
prefix. -/
theorem splitAtTicks_append (p rest : PyStr) (hp : tickChar ∉ p) :
    splitAtTicks (p ++ tickChar :: tickChar :: tickChar :: rest) = some (p, rest) := by
  induction p with
  | nil => simp [splitAtTicks, List.isPrefixOf]
  | cons c q ih =>
    have hc : ¬ (c = tickChar) := fun hh => hp (by rw [hh]; exact List.mem_cons_self _ _)
    have hq : tickChar ∉ q := fun hh => hp (List.mem_cons_of_mem _ hh)
    rw [List.cons_append]
    unfold splitAtTicks
    rw [if_neg (by simp [hc]), ih hq]
    rfl

/-- A list is a `isPrefixOf` any extension of itself. -/
theorem isPrefixOf_append_self (a b : PyStr) : a.isPrefixOf (a ++ b) = true := by
  rw [List.isPrefixOf_iff_prefix]
  exact List.prefix_append a b

/-- An element that does not satisfy `p` survives `dropWhile p`. -/
theorem mem_dropWhile_of_not (p : Char → Bool) (l : PyStr) (c : Char)
    (hc : c ∈ l) (hpc : p c = false) : c ∈ l.dropWhile p := by
  induction l with
  | nil => cases hc
  | cons x xs ih =>
    rw [List.dropWhile_cons]
    by_cases hx : p x
    · rw [if_pos hx]
      rcases List.mem_cons.1 hc with h | h
      · rw [h] at hpc; rw [hpc] at hx; cases hx
      · exact ih h
    · rw [if_neg hx]
      exact hc

/-- A non-whitespace member of a string survives `strip()`. -/
theorem mem_pyStrip (l : PyStr) (c : Char) (hc : c ∈ l) (hpc : pyIsSpace c = false) :
    c ∈ pyStrip l := by
  unfold pyStrip
  rw [List.mem_reverse]
  exact mem_dropWhile_of_not pyIsSpace _ c
    (List.mem_reverse.2 (mem_dropWhile_of_not pyIsSpace l c hc hpc)) hpc

/-- When the fence search yields a candidate that parses strictly to an
object, sanitize returns that object (`raw` containing a backtick rules
out the empty-input guard). -/
theorem sanitize_of_fence (raw body : PyStr) (o : List (PyStr × Json))
    (htick : tickChar ∈ raw)
    (hfs : fenceSearch raw = some (pyStrip body))
    (hparse : pyJsonLoads (pyStrip body) = some (Json.obj o)) :
    sanitize_llm_output raw = some o := by
  have hne : raw ≠ [] := List.ne_nil_of_mem htick
  have hstrip : pyStrip raw ≠ [] :=
    List.ne_nil_of_mem (mem_pyStrip raw tickChar htick (by decide))
  have hcand : extract_json_block raw = some (pyStrip body) := by
    unfold extract_json_block
    rw [if_neg (by simp [hne, hstrip]), hfs]
  have hpne : ¬ (pyStrip body = []) := by
    intro hh
    rw [hh] at hparse
    have hnil : pyJsonLoads ([] : PyStr) = none := rfl
    rw [hnil] at hparse
    cases hparse
  simp [sanitize_llm_output, hcand, hpne, attempt_parse, hparse]

/-- C6: for a well-formed JSON object embedded in a markdown code fence
— tagged `json` or untagged (when the interior does not accidentally
start with the tag word, which the regex would swallow) — sanitize
returns exactly the mapping obtained by parsing the (trimmed) fenced
text directly with `json.loads`.  The backtick-freedom side conditions
say that the fence shown is the first one in the text. -/
theorem C6_fence_roundtrip (pre body post : PyStr) (o : List (PyStr × Json))
    (hpre : tickChar ∉ pre) (hbody : tickChar ∉ body)
    (hparse : pyJsonLoads (pyStrip body) = some (Json.obj o)) :
    sanitize_llm_output (pre ++ "```json".data ++ body ++ "```".data ++ post) = some o
    ∧ ("json".data.isPrefixOf (body ++ "```".data ++ post) = false →
       sanitize_llm_output (pre ++ "```".data ++ body ++ "```".data ++ post) = some o) := by
  have et : ("```".data : PyStr) = [tickChar, tickChar, tickChar] := by decide
  have ej : ("```json".data : PyStr) = [tickChar, tickChar, tickChar] ++ "json".data := by
    decide
  constructor
  · have e3 : pre ++ "```json".data ++ body ++ "```".data ++ post
        = pre ++ (tickChar :: tickChar :: tickChar ::
            ("json".data ++ (body ++ (tickChar :: tickChar :: tickChar :: post)))) := by
      rw [ej, et]
      simp [List.append_assoc]
    rw [e3]
    have hfs : fenceSearch (pre ++ (tickChar :: tickChar :: tickChar ::
        ("json".data ++ (body ++ (tickChar :: tickChar :: tickChar :: post))))) =
        some (pyStrip body) := by
      unfold fenceSearch
      rw [splitAtTicks_append pre _ hpre]
      dsimp only
      rw [if_pos (isPrefixOf_append_self "json".data _)]
      have hdrop : (("json".data ++ (body ++ (tickChar :: tickChar :: tickChar :: post))) :
          PyStr).drop 4 = body ++ (tickChar :: tickChar :: tickChar :: post) := rfl
      rw [hdrop, splitAtTicks_append body post hbody]
    exact sanitize_of_fence _ body o (by simp) hfs hparse
  · intro hnotag
    have e3 : pre ++ "```".data ++ body ++ "```".data ++ post
        = pre ++ (tickChar :: tickChar :: tickChar ::
            (body ++ (tickChar :: tickChar :: tickChar :: post))) := by
      rw [et]
      simp [List.append_assoc]
    rw [e3]
    have hnotag2 : ¬ ("json".data.isPrefixOf
        (body ++ (tickChar :: tickChar :: tickChar :: post)) = true) := by
      have e4 : body ++ "```".data ++ post =
          body ++ (tickChar :: tickChar :: tickChar :: post) := by
        rw [et]
        simp [List.append_assoc]
      rw [e4] at hnotag
      simp [hnotag]
    have hfs : fenceSearch (pre ++ (tickChar :: tickChar :: tickChar ::
        (body ++ (tickChar :: tickChar :: tickChar :: post)))) =
        some (pyStrip body) := by
      unfold fenceSearch
      rw [splitAtTicks_append pre _ hpre]
      dsimp only
      rw [if_neg hnotag2, splitAtTicks_append body post hbody]
    exact sanitize_of_fence _ body o (by simp) hfs hparse

/-- Witness for C6 at a concrete fenced reply. -/
theorem C6_fence_roundtrip_witness :
    sanitize_llm_output ("Sure! ".data ++ "```json".data ++
        "\n\x7b\"to\": \"a@b.com\"\x7d\n".data ++ "```".data ++ " done".data) =
      some [("to".data, Json.str "a@b.com".data)] :=
  (C6_fence_roundtrip "Sure! ".data "\n\x7b\"to\": \"a@b.com\"\x7d\n".data " done".data
    [("to".data, Json.str "a@b.com".data)] (by decide) (by decide) (by rfl)).1
